import Mathlib

/-!
Shallow embedding of `packages/cubejs-firebolt-driver/src/FireboltDriver.ts`
(the Firebolt driver of the Cube project), together with proofs of the
specified properties.

Modelling conventions:
* JavaScript values that can flow through row hydration are modelled by the
  inductive `JsValue` (null, undefined, exact integers for engine numerics,
  strings, and an opaque tag for everything else).
* Asynchronous, stateful code is modelled by explicit state passing over
  `DriverState`; calls into the external `firebolt-sdk` boundary
  (`connect`, `engine.startAndWait`, `connection.execute`) are resolved by an
  oracle `Env` that maps the index of each call to its outcome, so that a
  theorem can quantify over every possible behaviour of the boundary.
* A thrown / rejected error is an `Except.error` carrying an `Err`: the
  optional numeric `status` inspected by the retry logic plus an identity tag
  `eid`, which lets theorems state that an error propagates *unchanged*.
-/

/-- A JavaScript runtime value as it can appear in a result row. `num`
carries an exact integer because the engine's numeric columns (e.g. 64-bit
`long`) are hydrated precisely to avoid precision loss. -/
inductive JsValue where
  | vnull
  | undef
  | num (n : ℤ)
  | str (s : String)
  | other (tag : ℕ)
deriving DecidableEq, Repr

/-- JavaScript template-literal string conversion, as in `` `${value}` ``;
for exact integers this is the decimal representation. -/
def jsToString : JsValue → String
  | .vnull => "null"
  | .undef => "undefined"
  | .num n => toString n
  | .str s => s
  | .other t => "[object " ++ toString t ++ "]"

/-- The static table `FireboltTypeToGeneric = { long: 'bigint' }`; a lookup
of a key that is absent yields `none` (JavaScript `undefined`). -/
def FireboltTypeToGeneric : String → Option String :=
  fun s => if s = "long" then some ("bigint") else none

/-- Embedding of `COMPLEX_TYPE = /(nullable|array)\((.+)\)/` over `List Char`:
at the current position try the alternation `nullable(` then `array(`;
a greedy `(.+)` followed by `\)` captures everything up to the *last* `)`
of the remaining input, provided that leaves the capture non-empty;
otherwise scanning resumes at the next position (leftmost match). -/
def tryWrapperAt (cs : List Char) : Option (String × List Char) :=
  if cs.take 9 = "nullable(".toList then some ("nullable", cs.drop 9)
  else if cs.take 6 = "array(".toList then some ("array", cs.drop 6)
  else none

/-- Index of the last occurrence of `c` in the list, if any. -/
def lastIdxOf (c : Char) : List Char → Option ℕ
  | [] => none
  | a :: as =>
    match lastIdxOf c as with
    | some j => some (j + 1)
    | none => if a = c then some 0 else none

/-- The capture groups of `columnType.match(COMPLEX_TYPE)`: the wrapper
keyword (group 1) and the inner type string (group 2), or `none` when the
regex does not match. -/
def complexCapture : List Char → Option (String × String)
  | [] => none
  | c :: rest =>
    match tryWrapperAt (c :: rest) with
    | some (w, after) =>
      (match lastIdxOf ')' after with
       | some j => if 1 ≤ j then some (w, String.mk (after.take j)) else complexCapture rest
       | none => complexCapture rest)
    | none => complexCapture rest

/-- Embedding of `FireboltDriver.toGenericType`. The inherited `BaseDriver.toGenericType`
lives outside this repository and is passed in as `base`. Inside the
complex-type branch the source returns `FireboltTypeToGeneric[innerType]`,
a raw record access that yields `undefined` when the key is absent; that is
rendered here with `Option.getD _ "undefined"`. -/
def toGenericType (base : String → String) (columnType : String) : String :=
  match FireboltTypeToGeneric columnType with
  | some g => g
  | none =>
    match complexCapture columnType.toList with
    | some (_outerType, innerType) =>
      -- the source re-tests `columnType in FireboltTypeToGeneric` here
      (match FireboltTypeToGeneric columnType with
       | some _ => (FireboltTypeToGeneric innerType).getD ("undefined")
       | none => base columnType)
    | none => base columnType

/-- Column metadata (`Meta` of the firebolt-sdk): name plus the
engine-native type string. -/
structure ColumnMeta where
  name : String
  type : String
deriving DecidableEq, Repr

/-- Embedding of `FireboltDriver.getHydratedValue`: stringify a non-null value of a
numeric column, pass everything else through. `isNumberType` is the
firebolt-sdk predicate on native type strings, kept as a boundary
parameter. -/
def getHydratedValue (isNumberType : String → Bool) (value : JsValue)
    (meta : ColumnMeta) : JsValue :=
  if isNumberType meta.type ∧ value ≠ JsValue.vnull then
    JsValue.str (jsToString value)
  else value

/-- Lookup of `row[key]` on a row object modelled as an association list;
an absent key reads as JavaScript `undefined`. -/
def rowLookup (row : List (String × JsValue)) (key : String) : JsValue :=
  match row.find? (fun p => p.1 = key) with
  | some p => p.2
  | none => JsValue.undef

/-- Embedding of `FireboltDriver.hydrateRow`: build the hydrated row keyed by the column
names of `meta`, in order, each value passed through `getHydratedValue`. -/
def hydrateRow (isNumberType : String → Bool) (row : List (String × JsValue))
    (meta : List ColumnMeta) : List (String × JsValue) :=
  meta.map (fun column => (column.name, getHydratedValue isNumberType (rowLookup row column.name) column))

/-- JavaScript `String.prototype.split` with a single-character separator,
over the character list: `"".split(c) = [""]`, and each separator character
starts a new segment. -/
def splitOnChar (c : Char) : List Char → List (List Char)
  | [] => [[]]
  | a :: as =>
    let r := splitOnChar c as
    if a = c then [] :: r
    else
      match r with
      | [] => [[a]]
      | g :: gs => (a :: g) :: gs

/-- The SQL text that `FireboltDriver.dropTable` passes to `this.query`:
if the name contains a dot, destructure `tableName.split('.')` as
`[_, name]`, i.e. keep only the second segment. -/
def dropTable (tableName : String) : String :=
  if tableName.toList.contains '.' then
    "DROP TABLE " ++ String.mk ((splitOnChar '.' tableName.toList).getD 1 [])
  else
    "DROP TABLE " ++ tableName

/-- The slice of `FireboltDriverConfiguration` relevant to `readOnly`:
`none` models a caller configuration without a `readOnly` key. -/
structure DriverConfigInput where
  readOnly : Option Bool
deriving DecidableEq, Repr

/-- The `readOnly` field of `this.config` after the constructor's merge
`{ readOnly: true, ..., ...config, ... }`: a key present in `config`
overrides the default `true`. -/
def mergedReadOnly (cfg : DriverConfigInput) : Bool :=
  match cfg.readOnly with
  | some b => b
  | none => true

/-- Embedding of `FireboltDriver.readOnly()`, i.e. `!!this.config.readOnly`; boolean
double negation on a boolean is the identity. -/
def readOnlyMethod (cfg : DriverConfigInput) : Bool :=
  mergedReadOnly cfg

/-- An error thrown across the firebolt-sdk boundary: the optional numeric
`status` inspected by the retry logic, plus an identity tag so theorems can
state that the very same error propagates. -/
structure Err where
  status : Option ℕ
  eid : ℕ
deriving DecidableEq, Repr

/-- Oracle for the external firebolt-sdk boundary: the outcome of the k-th
`firebolt.connect`, of the k-th `engine.startAndWait` (folded together with
the `getByName` lookup), of the k-th buffered `execute`+`fetchResult`, and
of the k-th streaming `execute`+`streamResult`+`await meta` pipeline. -/
structure Env where
  connect : ℕ → Except Err Unit
  engineStart : ℕ → Except Err Unit
  execute : ℕ → Except Err ℕ
  executeStream : ℕ → Except Err ℕ

/-- The driver's mutable state together with ghost call counters.
`connection` is the single cached connection slot (`this.connection`);
connection handles are drawn from the fresh counter `nextConn`. -/
structure DriverState where
  connection : Option ℕ
  nextConn : ℕ
  connectCalls : ℕ
  ensureCalls : ℕ
  startCalls : ℕ
  executeCalls : ℕ
  streamCalls : ℕ
deriving DecidableEq, Repr

/-- Embedding of `FireboltDriver.ensureEngineRunning`: a no-op when no engine name is
configured; otherwise look up the engine by name and `startAndWait`, whose
combined outcome the oracle decides. `ensureCalls` is a ghost counter of
invocations of this method. -/
def ensureEngineRunning (env : Env) (engineName : Option String)
    (st : DriverState) : Except Err Unit × DriverState :=
  let st1 := { st with ensureCalls := st.ensureCalls + 1 }
  match engineName with
  | none => (Except.ok (), st1)
  | some _ =>
    let r := env.engineStart st1.startCalls
    (r, { st1 with startCalls := st1.startCalls + 1 })

/-- Embedding of `FireboltDriver.initConnection`: `await this.firebolt.connect(...)`,
then `await this.ensureEngineRunning()`, returning the connection; on any
failure the catch block sets `this.connection = null` and rethrows. -/
def initConnection (env : Env) (engineName : Option String)
    (st : DriverState) : Except Err ℕ × DriverState :=
  match env.connect st.connectCalls with
  | Except.error e =>
    (Except.error e,
      { st with connectCalls := st.connectCalls + 1, connection := none })
  | Except.ok _ =>
    let c := st.nextConn
    let st1 := { st with connectCalls := st.connectCalls + 1, nextConn := c + 1 }
    match ensureEngineRunning env engineName st1 with
    | (Except.error e, st2) => (Except.error e, { st2 with connection := none })
    | (Except.ok _, st2) => (Except.ok c, st2)

/-- Embedding of `FireboltDriver.getConnection`: return the cached connection when one is
present, otherwise start a creation via `initConnection` and cache it. -/
def getConnection (env : Env) (engineName : Option String)
    (st : DriverState) : Except Err ℕ × DriverState :=
  match st.connection with
  | some c => (Except.ok c, st)
  | none =>
    match initConnection env engineName st with
    | (Except.ok c, st1) => (Except.ok c, { st1 with connection := some c })
    | (Except.error e, st1) => (Except.error e, st1)

/-- Embedding of `FireboltDriver.queryResponse(query, parameters, retry)`: acquire a
connection, execute with `fetchResult`; in the catch block a 401 with retry
still allowed clears the cached connection and re-runs the whole sequence
once with retries disabled, a 404 with retry still allowed runs
`ensureEngineRunning` and re-runs once with retries disabled, and any other
error (or an exhausted retry) propagates unchanged. -/
def queryResponse (env : Env) (engineName : Option String)
    (retry : Bool) (st : DriverState) : Except Err ℕ × DriverState :=
  let attempt :=
    match getConnection env engineName st with
    | (Except.error e, st1) => (Except.error e, st1)
    | (Except.ok _, st1) =>
      let r := env.execute st1.executeCalls
      (r, { st1 with executeCalls := st1.executeCalls + 1 })
  match attempt with
  | (Except.ok d, st2) => (Except.ok d, st2)
  | (Except.error e, st2) =>
    if h : e.status = some 401 ∧ retry then
      queryResponse env engineName false { st2 with connection := none }
    else if h2 : e.status = some 404 ∧ retry then
      match ensureEngineRunning env engineName st2 with
      | (Except.ok _, st3) => queryResponse env engineName false st3
      | (Except.error e2, st3) => (Except.error e2, st3)
    else
      (Except.error e, st2)
termination_by (if retry then 1 else 0)
decreasing_by
  · simp [h.2]
  · simp [h2.2]

/-- Embedding of `FireboltDriver.streamResponse(query, parameters, retry)`: same retry
skeleton as `queryResponse`, the successful branch instead runs the
streaming pipeline (`execute`, `streamResult`, `await meta`), whose combined
outcome is `env.executeStream` and whose value is an opaque stream handle. -/
def streamResponse (env : Env) (engineName : Option String)
    (retry : Bool) (st : DriverState) : Except Err ℕ × DriverState :=
  let attempt :=
    match getConnection env engineName st with
    | (Except.error e, st1) => (Except.error e, st1)
    | (Except.ok _, st1) =>
      let r := env.executeStream st1.streamCalls
      (r, { st1 with streamCalls := st1.streamCalls + 1 })
  match attempt with
  | (Except.ok d, st2) => (Except.ok d, st2)
  | (Except.error e, st2) =>
    if h : e.status = some 401 ∧ retry then
      streamResponse env engineName false { st2 with connection := none }
    else if h2 : e.status = some 404 ∧ retry then
      match ensureEngineRunning env engineName st2 with
      | (Except.ok _, st3) => streamResponse env engineName false st3
      | (Except.error e2, st3) => (Except.error e2, st3)
    else
      (Except.error e, st2)
termination_by (if retry then 1 else 0)
decreasing_by
  · simp [h.2]
  · simp [h2.2]

/-- Embedding of `FireboltDriver.release`: if a connection is cached, await it, destroy
it and clear the cache; otherwise do nothing. `destroyCalls` is a ghost
counter of `connection.destroy()` calls. -/
structure ReleaseState where
  connection : Option ℕ
  destroyCalls : ℕ
deriving DecidableEq, Repr

/-- The state transition of `release()` (destroying an established
connection succeeds at the boundary). -/
def release (st : ReleaseState) : ReleaseState :=
  match st.connection with
  | some _ => { connection := none, destroyCalls := st.destroyCalls + 1 }
  | none => st

/-- The connection slot of `ConnectionManager` as seen by the
single-threaded JavaScript event loop: it caches the *promise handle* of the
in-flight creation, not only its eventual value. -/
structure AcquireState where
  connection : Option ℕ
  nextPromise : ℕ
  connectCalls : ℕ
deriving DecidableEq, Repr

/-- The synchronous segment of `getConnection` as one caller runs it on the
event loop: the cached-promise branch returns the cached handle untouched;
the creation branch runs `this.connection = this.initConnection()`, which
synchronously invokes `firebolt.connect` (one connect call is issued) and
stores the pending promise before control can pass to any other caller. -/
def getConnectionSync (st : AcquireState) : ℕ × AcquireState :=
  match st.connection with
  | some p => (p, st)
  | none =>
    (st.nextPromise,
      { connection := some st.nextPromise,
        nextPromise := st.nextPromise + 1,
        connectCalls := st.connectCalls + 1 })

/-- Model of `n` concurrent callers entering `getConnection`; the event loop runs
each caller's synchronous segment atomically, in arrival order, and each
caller receives a promise handle. -/
def acquireMany : ℕ → AcquireState → List ℕ × AcquireState
  | 0, st => ([], st)
  | n + 1, st =>
    let q := getConnectionSync st
    let r := acquireMany n q.2
    (q.1 :: r.1, r.2)

/- ### Helper lemmas -/

theorem splitOnChar_ne_nil (c : Char) (l : List Char) : splitOnChar c l ≠ [] := by
  induction l with
  | nil => simp [splitOnChar]
  | cons a as ih =>
    simp only [splitOnChar]
    split
    · simp
    · cases h : splitOnChar c as with
      | nil => simp
      | cons g gs => simp [h]

theorem splitOnChar_not_mem (c : Char) (l : List Char) (h : c ∉ l) :
    splitOnChar c l = [l] := by
  induction l with
  | nil => rfl
  | cons a as ih =>
    simp only [List.mem_cons, not_or] at h
    simp only [splitOnChar, ih h.2]
    rw [if_neg (by exact fun hc => h.1 hc.symm)]

theorem splitOnChar_append_sep (c : Char) (a rest : List Char) (h : c ∉ a) :
    splitOnChar c (a ++ c :: rest) = a :: splitOnChar c rest := by
  induction a with
  | nil => simp [splitOnChar]
  | cons x xs ih =>
    simp only [List.mem_cons, not_or] at h
    simp only [List.cons_append, splitOnChar, List.append_eq, ih h.2]
    rw [if_neg (by exact fun hc => h.1 hc.symm)]

theorem string_mk_toList (s : String) : String.mk s.toList = s := by
  cases s
  rfl

theorem string_toList_append (a b : String) :
    (a ++ b).toList = a.toList ++ b.toList := by
  cases a
  cases b
  rfl

/- ### Claim C7 -/

/-- Claim C7: for every table name of the form `schema.table` (a
schema-qualifier, a dot, and a table part, neither part containing a dot),
`dropTable` strips the qualifier and issues a DROP TABLE statement that
references only the table part. -/
theorem dropTable_strips_schema_qualifier (s t : String)
    (hs : '.' ∉ s.toList) (ht : '.' ∉ t.toList) :
    dropTable (s ++ "." ++ t) = "DROP TABLE " ++ t := by
  have hlist : (s ++ "." ++ t).toList = s.toList ++ '.' :: t.toList := by
    rw [string_toList_append, string_toList_append]
    simp
  have hc : ((s ++ "." ++ t).toList).contains '.' = true := by
    rw [hlist]
    simp
  rw [dropTable, if_pos hc, hlist, splitOnChar_append_sep '.' _ _ hs,
    splitOnChar_not_mem '.' _ ht]
  simp [string_mk_toList]

/-- Witness for C7 at the spec's own example `schema.table`. -/
theorem dropTable_strips_schema_qualifier_witness :
    ('.' ∉ "schema".toList) ∧ ('.' ∉ "table".toList) ∧
      dropTable ("schema" ++ "." ++ "table") = "DROP TABLE " ++ "table" :=
  ⟨by decide, by decide,
    dropTable_strips_schema_qualifier ("schema") ("table") (by decide) (by decide)⟩

/- ### Claim C9 -/

/-- Claim C9: for a table name with more than one dot, `dropTable` keeps
only the segment between the first and the second dot and silently discards
everything after it (the trailing part `c` may itself contain dots). -/
theorem dropTable_multi_dot (a b c : String)
    (ha : '.' ∉ a.toList) (hb : '.' ∉ b.toList) :
    dropTable (a ++ "." ++ b ++ "." ++ c) = "DROP TABLE " ++ b := by
  have hlist : (a ++ "." ++ b ++ "." ++ c).toList
      = a.toList ++ '.' :: (b.toList ++ '.' :: c.toList) := by
    rw [string_toList_append, string_toList_append, string_toList_append,
      string_toList_append]
    simp
  have hcon : ((a ++ "." ++ b ++ "." ++ c).toList).contains '.' = true := by
    rw [hlist]
    simp
  rw [dropTable, if_pos hcon, hlist, splitOnChar_append_sep '.' _ _ ha,
    splitOnChar_append_sep '.' _ _ hb]
  have hne := splitOnChar_ne_nil '.' c.toList
  cases hsp : splitOnChar '.' c.toList with
  | nil => exact absurd hsp hne
  | cons g gs => simp [string_mk_toList]

/-- Witness for C9 at the implicit claim's example `a.b.c`. -/
theorem dropTable_multi_dot_witness :
    ('.' ∉ "a".toList) ∧ ('.' ∉ "b".toList) ∧
      dropTable ("a" ++ "." ++ "b" ++ "." ++ "c") = "DROP TABLE " ++ "b" :=
  ⟨by decide, by decide, dropTable_multi_dot ("a") ("b") ("c") (by decide) (by decide)⟩

/- ### Claim C8 -/

/-- Claim C8: `release()` is idempotent at the public interface: a second
call right after a first one changes nothing and destroys nothing further,
a call with no cached connection is a no-op, and after any call no
connection remains cached. -/
theorem release_idempotent (st : ReleaseState) :
    release (release st) = release st
    ∧ (release st).connection = none
    ∧ (st.connection = none → release st = st)
    ∧ (release (release st)).destroyCalls = (release st).destroyCalls := by
  cases h : st.connection <;> simp [release, h]

/-- Witness for C8 on a concrete connection-free state and a concrete
state holding connection 5. -/
theorem release_idempotent_witness :
    release (⟨none, 0⟩ : ReleaseState) = (⟨none, 0⟩ : ReleaseState)
    ∧ release (release (⟨some 5, 0⟩ : ReleaseState))
        = release (⟨some 5, 0⟩ : ReleaseState) :=
  ⟨(release_idempotent ⟨none, 0⟩).2.2.1 rfl, (release_idempotent ⟨some 5, 0⟩).1⟩

/- ### Claim C10 -/

/-- Claim C10: a configuration that does not specify `readOnly` defaults it
to `true`, so `readOnly()` returns `true`; with an explicit configured
value, `readOnly()` returns exactly the boolean coercion of that value
(which on a boolean is the value itself). -/
theorem readOnly_defaults_true (cfg : DriverConfigInput) :
    (cfg.readOnly = none → readOnlyMethod cfg = true)
    ∧ ∀ b, cfg.readOnly = some b → readOnlyMethod cfg = b := by
  cases h : cfg.readOnly <;>
    simp [readOnlyMethod, mergedReadOnly, h]

/-- Witness for C10: no override yields `true`; an explicit `false` yields
`false`. -/
theorem readOnly_defaults_true_witness :
    readOnlyMethod ⟨none⟩ = true ∧ readOnlyMethod ⟨some false⟩ = false :=
  ⟨(readOnly_defaults_true ⟨none⟩).1 rfl,
    (readOnly_defaults_true ⟨some false⟩).2 false rfl⟩

/- ### Claim C6 -/

/-- Claim C6: row hydration stringifies (to the decimal representation) any
non-null value of a column marked numeric, leaves a null numeric value as
null, passes every value of a non-numeric column through unchanged, and
`hydrateRow` applies exactly this conversion at each column of the
metadata. -/
theorem hydrateRow_numeric_to_string (isNT : String → Bool) (m : ColumnMeta) :
    (∀ v, isNT m.type = true → v ≠ JsValue.vnull →
      getHydratedValue isNT v m = JsValue.str (jsToString v))
    ∧ (∀ n : ℤ, isNT m.type = true →
      getHydratedValue isNT (JsValue.num n) m = JsValue.str (toString n))
    ∧ (isNT m.type = true →
      getHydratedValue isNT JsValue.vnull m = JsValue.vnull)
    ∧ (∀ v, isNT m.type = false → getHydratedValue isNT v m = v)
    ∧ (∀ row meta col, col ∈ meta →
      (col.name, getHydratedValue isNT (rowLookup row col.name) col)
        ∈ hydrateRow isNT row meta) := by
  refine ⟨?_, ?_, ?_, ?_, ?_⟩
  · intro v h hv
    simp [getHydratedValue, h, hv]
  · intro n h
    simp [getHydratedValue, h, jsToString]
  · intro h
    simp [getHydratedValue]
  · intro v h
    simp [getHydratedValue, h]
  · intro row meta col hcol
    simp only [hydrateRow, List.mem_map]
    exact ⟨col, hcol, rfl⟩

/-- Witness for C6 at the spec's example value `12345678901234567890` in a
column of the numeric native type `long`, plus the null and non-numeric
cases. -/
theorem hydrateRow_numeric_to_string_witness :
    getHydratedValue (fun t => t == "long")
        (JsValue.num 12345678901234567890) ⟨"amount", "long"⟩
      = JsValue.str ("12345678901234567890")
    ∧ getHydratedValue (fun t => t == "long") JsValue.vnull ⟨"amount", "long"⟩
      = JsValue.vnull
    ∧ getHydratedValue (fun t => t == "long") (JsValue.str ("x")) ⟨"s", "text"⟩
      = JsValue.str ("x") := by
  refine ⟨?_, ?_, ?_⟩
  · rw [(hydrateRow_numeric_to_string (fun t => t == "long")
      ⟨"amount", "long"⟩).2.1 12345678901234567890 rfl]
    rfl
  · exact (hydrateRow_numeric_to_string (fun t => t == "long")
      ⟨"amount", "long"⟩).2.2.1 rfl
  · exact (hydrateRow_numeric_to_string (fun t => t == "long")
      ⟨"s", "text"⟩).2.2.2.1 (JsValue.str ("x")) rfl

/- ### Claim C5 -/

/-- Claim C5: a native type string that is not an exact key of
`FireboltTypeToGeneric` but matches the wrapper pattern reaches the
complex-type branch, whose guard re-tests the *outer* string against the
table; since that outer lookup misses by assumption, the inner-type entry
is never produced and the call delegates to the inherited base mapping.
(The inner-type result would be produced only if the outer string were
itself a table key, which the literal source encodes intentionally per the
spec's open question.) -/
theorem toGenericType_wrapped_delegates (base : String → String) (ct : String)
    (hmiss : FireboltTypeToGeneric ct = none)
    (hmatch : (complexCapture ct.toList).isSome = true) :
    toGenericType base ct = base ct := by
  obtain ⟨p, hp⟩ := Option.isSome_iff_exists.mp hmatch
  obtain ⟨w, inner⟩ := p
  simp only [toGenericType, hmiss, hp]

/-- Witness for C5 at `array(long)`: no exact table hit, the wrapper
pattern matches, and the result is the base mapping of the full string. -/
theorem toGenericType_wrapped_delegates_witness :
    FireboltTypeToGeneric ("array(long)") = none
    ∧ (complexCapture ("array(long)".toList)).isSome = true
    ∧ toGenericType (fun s => s ++ "!") "array(long)" = "array(long)" ++ "!" :=
  ⟨by decide, by decide,
    toGenericType_wrapped_delegates (fun s => s ++ "!") "array(long)"
      (by decide) (by decide)⟩

/- ### Claim C3 -/

/-- When a creation promise is already cached, every further caller gets
that same handle and the state is untouched. -/
theorem acquireMany_cached (n : ℕ) (st : AcquireState) (p : ℕ)
    (h : st.connection = some p) :
    acquireMany n st = (List.replicate n p, st) := by
  induction n with
  | zero => simp [acquireMany]
  | succ k ih => simp [acquireMany, getConnectionSync, h, ih, List.replicate]

/-- Claim C3: any number `n ≥ 1` of concurrent callers entering connection
acquisition before any connection exists issue exactly one underlying
connect call, and every caller resolves to the same (pending) connection
handle, because the first caller caches the in-flight creation itself. -/
theorem acquire_concurrent_single_connect (n : ℕ) (st : AcquireState)
    (h : st.connection = none) (hn : 1 ≤ n) :
    (acquireMany n st).1 = List.replicate n st.nextPromise
    ∧ (acquireMany n st).2.connectCalls = st.connectCalls + 1 := by
  obtain ⟨k, rfl⟩ : ∃ k, n = k + 1 := ⟨n - 1, by omega⟩
  have hrest := acquireMany_cached k
    (⟨some st.nextPromise, st.nextPromise + 1, st.connectCalls + 1⟩ : AcquireState)
    st.nextPromise rfl
  simp [acquireMany, getConnectionSync, h, hrest, List.replicate]

/-- Witness for C3: three concurrent callers on a fresh manager share one
handle and trigger exactly one connect call. -/
theorem acquire_concurrent_single_connect_witness :
    (acquireMany 3 ⟨none, 0, 0⟩).1 = [0, 0, 0]
    ∧ (acquireMany 3 ⟨none, 0, 0⟩).2.connectCalls = 1 :=
  acquire_concurrent_single_connect 3 ⟨none, 0, 0⟩ rfl (by decide)

/- ### Claim C4 -/

/-- Claim C4: when connection creation fails — either in the authenticated
`connect` call or in the subsequent engine-availability check — the cached
pending connection is cleared (set back to `none`) and the very same error
propagates to the caller, so no partially-created connection remains
cached. -/
theorem initConnection_failure_clears_cache (env : Env)
    (engineName : Option String) (st : DriverState) (e : Err)
    (h : st.connection = none) :
    (env.connect st.connectCalls = Except.error e →
      (getConnection env engineName st).1 = Except.error e
      ∧ (getConnection env engineName st).2.connection = none)
    ∧ (∀ nm, engineName = some nm →
      env.connect st.connectCalls = Except.ok () →
      env.engineStart st.startCalls = Except.error e →
      (getConnection env engineName st).1 = Except.error e
      ∧ (getConnection env engineName st).2.connection = none) := by
  constructor
  · intro hc
    simp [getConnection, initConnection, h, hc]
  · intro nm hnm hc hs
    subst hnm
    simp [getConnection, initConnection, ensureEngineRunning, h, hc, hs]

/-- Witness for C4: a failing connect (error 500) on a fresh driver leaves
no cached connection and surfaces the error. -/
theorem initConnection_failure_clears_cache_witness :
    (getConnection
        ⟨fun _ => Except.error ⟨some 500, 3⟩, fun _ => Except.ok (),
          fun _ => Except.ok 0, fun _ => Except.ok 0⟩
        (some ("eng")) ⟨none, 0, 0, 0, 0, 0, 0⟩).1 = Except.error ⟨some 500, 3⟩
    ∧ (getConnection
        ⟨fun _ => Except.error ⟨some 500, 3⟩, fun _ => Except.ok (),
          fun _ => Except.ok 0, fun _ => Except.ok 0⟩
        (some ("eng")) ⟨none, 0, 0, 0, 0, 0, 0⟩).2.connection = none :=
  (initConnection_failure_clears_cache
    ⟨fun _ => Except.error ⟨some 500, 3⟩, fun _ => Except.ok (),
      fun _ => Except.ok 0, fun _ => Except.ok 0⟩
    (some ("eng")) ⟨none, 0, 0, 0, 0, 0, 0⟩ ⟨some 500, 3⟩ rfl).1 rfl

/- ### Helper lemmas for the retry executor -/

theorem getConnection_cached (env : Env) (engineName : Option String)
    (st : DriverState) (c : ℕ) (h : st.connection = some c) :
    getConnection env engineName st = (Except.ok c, st) := by
  simp [getConnection, h]

theorem ensureEngineRunning_ok (env : Env) (engineName : Option String)
    (st : DriverState) (hstart : ∀ k, env.engineStart k = Except.ok ()) :
    ensureEngineRunning env engineName st
      = (Except.ok (),
          { st with ensureCalls := st.ensureCalls + 1,
                    startCalls := st.startCalls
                      + (if engineName.isSome then 1 else 0) }) := by
  cases engineName <;> simp [ensureEngineRunning, hstart]

theorem getConnection_creates (env : Env) (engineName : Option String)
    (st : DriverState) (h : st.connection = none)
    (hc : env.connect st.connectCalls = Except.ok ())
    (hstart : ∀ k, env.engineStart k = Except.ok ()) :
    getConnection env engineName st
      = (Except.ok st.nextConn,
          { st with connection := some st.nextConn,
                    nextConn := st.nextConn + 1,
                    connectCalls := st.connectCalls + 1,
                    ensureCalls := st.ensureCalls + 1,
                    startCalls := st.startCalls
                      + (if engineName.isSome then 1 else 0) }) := by
  simp [getConnection, initConnection, h, hc,
    ensureEngineRunning_ok env engineName _ hstart]

/- ### Claim C1 -/

/-- Claim C1: a top-level execution (buffered or streamed) whose first
attempt fails with status 401 clears the cached connection and re-runs the
whole sequence exactly once with retries disabled; if that second attempt
fails with 401 again then that very error propagates, exactly two attempts
were made, and exactly one new connection was created for the retry. -/
theorem retry_on_401 (env : Env) (engineName : Option String)
    (st : DriverState) :
    (∀ c e1, st.connection = some c →
      env.execute st.executeCalls = Except.error e1 →
      e1.status = some 401 →
      queryResponse env engineName true st
        = queryResponse env engineName false
            { st with executeCalls := st.executeCalls + 1, connection := none }
      ∧ (∀ e2, (∀ k, env.connect k = Except.ok ()) →
          (∀ k, env.engineStart k = Except.ok ()) →
          env.execute (st.executeCalls + 1) = Except.error e2 →
          e2.status = some 401 →
          (queryResponse env engineName true st).1 = Except.error e2
          ∧ (queryResponse env engineName true st).2.executeCalls
              = st.executeCalls + 2
          ∧ (queryResponse env engineName true st).2.connectCalls
              = st.connectCalls + 1
          ∧ (queryResponse env engineName true st).2.connection
              = some st.nextConn))
    ∧ (∀ c e1, st.connection = some c →
      env.executeStream st.streamCalls = Except.error e1 →
      e1.status = some 401 →
      streamResponse env engineName true st
        = streamResponse env engineName false
            { st with streamCalls := st.streamCalls + 1, connection := none }
      ∧ (∀ e2, (∀ k, env.connect k = Except.ok ()) →
          (∀ k, env.engineStart k = Except.ok ()) →
          env.executeStream (st.streamCalls + 1) = Except.error e2 →
          e2.status = some 401 →
          (streamResponse env engineName true st).1 = Except.error e2
          ∧ (streamResponse env engineName true st).2.streamCalls
              = st.streamCalls + 2
          ∧ (streamResponse env engineName true st).2.connectCalls
              = st.connectCalls + 1
          ∧ (streamResponse env engineName true st).2.connection
              = some st.nextConn)) := by
  constructor
  · intro c e1 hconn hex1 h401
    have h1 : queryResponse env engineName true st
        = queryResponse env engineName false
            { st with executeCalls := st.executeCalls + 1,
                      connection := none } := by
      rw [queryResponse]
      simp [getConnection_cached env engineName st c hconn, hex1, h401]
    refine ⟨h1, ?_⟩
    intro e2 hco hstart hex2 h401b
    rw [h1, queryResponse,
      getConnection_creates env engineName _ rfl (hco _) hstart]
    simp [hex2, h401b]
  · intro c e1 hconn hex1 h401
    have h1 : streamResponse env engineName true st
        = streamResponse env engineName false
            { st with streamCalls := st.streamCalls + 1,
                      connection := none } := by
      rw [streamResponse]
      simp [getConnection_cached env engineName st c hconn, hex1, h401]
    refine ⟨h1, ?_⟩
    intro e2 hco hstart hex2 h401b
    rw [h1, streamResponse,
      getConnection_creates env engineName _ rfl (hco _) hstart]
    simp [hex2, h401b]

/-- Witness for C1: with every attempt failing as 401 (first error id 7,
second error id 8) and connection setup succeeding, both the buffered and
the streamed path surface the *second* 401 after exactly one retry, having
created exactly one new connection. -/
theorem retry_on_401_witness :
    (queryResponse
        ⟨fun _ => Except.ok (), fun _ => Except.ok (),
          fun k => Except.error ⟨some 401, 7 + k⟩,
          fun k => Except.error ⟨some 401, 7 + k⟩⟩
        none true ⟨some 0, 1, 1, 1, 0, 0, 0⟩).1 = Except.error ⟨some 401, 8⟩
    ∧ (queryResponse
        ⟨fun _ => Except.ok (), fun _ => Except.ok (),
          fun k => Except.error ⟨some 401, 7 + k⟩,
          fun k => Except.error ⟨some 401, 7 + k⟩⟩
        none true ⟨some 0, 1, 1, 1, 0, 0, 0⟩).2.connectCalls = 2
    ∧ (streamResponse
        ⟨fun _ => Except.ok (), fun _ => Except.ok (),
          fun k => Except.error ⟨some 401, 7 + k⟩,
          fun k => Except.error ⟨some 401, 7 + k⟩⟩
        none true ⟨some 0, 1, 1, 1, 0, 0, 0⟩).1 = Except.error ⟨some 401, 8⟩ := by
  obtain ⟨hq, hs⟩ := retry_on_401
    ⟨fun _ => Except.ok (), fun _ => Except.ok (),
      fun k => Except.error ⟨some 401, 7 + k⟩,
      fun k => Except.error ⟨some 401, 7 + k⟩⟩
    none ⟨some 0, 1, 1, 1, 0, 0, 0⟩
  have hb := (hq 0 ⟨some 401, 7⟩ rfl rfl rfl).2 ⟨some 401, 8⟩
    (fun _ => rfl) (fun _ => rfl) rfl rfl
  have hst := (hs 0 ⟨some 401, 7⟩ rfl rfl rfl).2 ⟨some 401, 8⟩
    (fun _ => rfl) (fun _ => rfl) rfl rfl
  exact ⟨hb.1, by rw [hb.2.2.1], hst.1⟩

/- ### Claim C2 -/

/-- Claim C2: a top-level execution (buffered or streamed) whose first
attempt fails with status 404 calls the engine-start sequence
(`ensureEngineRunning`) and re-runs the whole sequence exactly once with
retries disabled; if that second attempt fails with 404 again then that
very error propagates, exactly two attempts and exactly one
`ensureEngineRunning` call were made, and — unlike the 401 path — no new
connection is created: the cached connection stays in place. -/
theorem retry_on_404 (env : Env) (engineName : Option String)
    (st : DriverState) :
    (∀ c e1, st.connection = some c →
      (∀ k, env.engineStart k = Except.ok ()) →
      env.execute st.executeCalls = Except.error e1 →
      e1.status = some 404 →
      queryResponse env engineName true st
        = queryResponse env engineName false
            { st with executeCalls := st.executeCalls + 1,
                      ensureCalls := st.ensureCalls + 1,
                      startCalls := st.startCalls
                        + (if engineName.isSome then 1 else 0) }
      ∧ (∀ e2, env.execute (st.executeCalls + 1) = Except.error e2 →
          e2.status = some 404 →
          (queryResponse env engineName true st).1 = Except.error e2
          ∧ (queryResponse env engineName true st).2.executeCalls
              = st.executeCalls + 2
          ∧ (queryResponse env engineName true st).2.ensureCalls
              = st.ensureCalls + 1
          ∧ (queryResponse env engineName true st).2.connectCalls
              = st.connectCalls
          ∧ (queryResponse env engineName true st).2.connection = some c))
    ∧ (∀ c e1, st.connection = some c →
      (∀ k, env.engineStart k = Except.ok ()) →
      env.executeStream st.streamCalls = Except.error e1 →
      e1.status = some 404 →
      streamResponse env engineName true st
        = streamResponse env engineName false
            { st with streamCalls := st.streamCalls + 1,
                      ensureCalls := st.ensureCalls + 1,
                      startCalls := st.startCalls
                        + (if engineName.isSome then 1 else 0) }
      ∧ (∀ e2, env.executeStream (st.streamCalls + 1) = Except.error e2 →
          e2.status = some 404 →
          (streamResponse env engineName true st).1 = Except.error e2
          ∧ (streamResponse env engineName true st).2.streamCalls
              = st.streamCalls + 2
          ∧ (streamResponse env engineName true st).2.ensureCalls
              = st.ensureCalls + 1
          ∧ (streamResponse env engineName true st).2.connectCalls
              = st.connectCalls
          ∧ (streamResponse env engineName true st).2.connection = some c)) := by
  constructor
  · intro c e1 hconn hstart hex1 h404
    have hens := ensureEngineRunning_ok env engineName
      { st with executeCalls := st.executeCalls + 1 } hstart
    have h1 : queryResponse env engineName true st
        = queryResponse env engineName false
            { st with executeCalls := st.executeCalls + 1,
                      ensureCalls := st.ensureCalls + 1,
                      startCalls := st.startCalls
                        + (if engineName.isSome then 1 else 0) } := by
      rw [queryResponse]
      simp [getConnection_cached env engineName st c hconn, hex1, h404, hens]
    refine ⟨h1, ?_⟩
    intro e2 hex2 h404b
    have hgc := getConnection_cached env engineName
      { st with executeCalls := st.executeCalls + 1,
                ensureCalls := st.ensureCalls + 1,
                startCalls := st.startCalls
                  + (if engineName.isSome then 1 else 0) } c hconn
    rw [h1, queryResponse]
    simp [hgc, hex2, h404b]
    exact hconn
  · intro c e1 hconn hstart hex1 h404
    have hens := ensureEngineRunning_ok env engineName
      { st with streamCalls := st.streamCalls + 1 } hstart
    have h1 : streamResponse env engineName true st
        = streamResponse env engineName false
            { st with streamCalls := st.streamCalls + 1,
                      ensureCalls := st.ensureCalls + 1,
                      startCalls := st.startCalls
                        + (if engineName.isSome then 1 else 0) } := by
      rw [streamResponse]
      simp [getConnection_cached env engineName st c hconn, hex1, h404, hens]
    refine ⟨h1, ?_⟩
    intro e2 hex2 h404b
    have hgc := getConnection_cached env engineName
      { st with streamCalls := st.streamCalls + 1,
                ensureCalls := st.ensureCalls + 1,
                startCalls := st.startCalls
                  + (if engineName.isSome then 1 else 0) } c hconn
    rw [h1, streamResponse]
    simp [hgc, hex2, h404b]
    exact hconn

/-- Witness for C2: with every attempt failing as 404 (first error id 7,
second error id 8), a configured engine name, and a successful engine
start, both paths surface the *second* 404 after exactly one retry; the
engine-start sequence ran exactly once and no new connection was made. -/
theorem retry_on_404_witness :
    (queryResponse
        ⟨fun _ => Except.ok (), fun _ => Except.ok (),
          fun k => Except.error ⟨some 404, 7 + k⟩,
          fun k => Except.error ⟨some 404, 7 + k⟩⟩
        (some ("eng")) true ⟨some 0, 1, 1, 1, 0, 0, 0⟩).1
      = Except.error ⟨some 404, 8⟩
    ∧ (queryResponse
        ⟨fun _ => Except.ok (), fun _ => Except.ok (),
          fun k => Except.error ⟨some 404, 7 + k⟩,
          fun k => Except.error ⟨some 404, 7 + k⟩⟩
        (some ("eng")) true ⟨some 0, 1, 1, 1, 0, 0, 0⟩).2.ensureCalls = 2
    ∧ (queryResponse
        ⟨fun _ => Except.ok (), fun _ => Except.ok (),
          fun k => Except.error ⟨some 404, 7 + k⟩,
          fun k => Except.error ⟨some 404, 7 + k⟩⟩
        (some ("eng")) true ⟨some 0, 1, 1, 1, 0, 0, 0⟩).2.connectCalls = 1
    ∧ (streamResponse
        ⟨fun _ => Except.ok (), fun _ => Except.ok (),
          fun k => Except.error ⟨some 404, 7 + k⟩,
          fun k => Except.error ⟨some 404, 7 + k⟩⟩
        (some ("eng")) true ⟨some 0, 1, 1, 1, 0, 0, 0⟩).1
      = Except.error ⟨some 404, 8⟩ := by
  obtain ⟨hq, hs⟩ := retry_on_404
    ⟨fun _ => Except.ok (), fun _ => Except.ok (),
      fun k => Except.error ⟨some 404, 7 + k⟩,
      fun k => Except.error ⟨some 404, 7 + k⟩⟩
    (some ("eng")) ⟨some 0, 1, 1, 1, 0, 0, 0⟩
  have hb := (hq 0 ⟨some 404, 7⟩ rfl (fun _ => rfl) rfl rfl).2 ⟨some 404, 8⟩
    rfl rfl
  have hst := (hs 0 ⟨some 404, 7⟩ rfl (fun _ => rfl) rfl rfl).2 ⟨some 404, 8⟩
    rfl rfl
  exact ⟨hb.1, by rw [hb.2.2.1], by rw [hb.2.2.2.1], hst.1⟩
